import Mathlib

/-!
# Verification of the gap-mining engine (`src/mining.py`)

Shallow embedding of the association-rule mining pipeline:

* `extract_features_for_mining` — flattens graph query records into a one-hot
  encoded feature table (the `TransactionEncoder` step);
* `discover_rules` — `apriori(df_mining, min_support=0.01)` followed by
  `association_rules(..., metric="confidence", min_threshold=0.5)` followed by
  the target filter `consequents == frozenset({HAS_TEST})`;
* `find_exceptions` — per rule, the rows matching every antecedent column and
  failing every consequent column, emitted as gap records.

Modelling conventions, each traced to the source:

* A pandas `DataFrame` row holds boolean status cells plus the string-valued
  `id` column.  The `id` column is modelled as the separate `Row.id` field and
  the boolean columns as the association list `Row.cells`; `FeatureTable.cols`
  is the list of boolean column labels (`te.columns_`).  `discover_rules`
  starts with `df.drop(columns=['id'])`, so mining ranges over `cols` exactly.
* `apriori(df, min_support=0.01, use_colnames=True)` returns every nonempty
  set of columns whose support (fraction of rows in which all those columns
  are `True`) is at least `1/100`.  Itemsets are represented canonically as
  sublists of `cols`.
* `association_rules(freq, metric="confidence", min_threshold=0.5)` splits
  each frequent itemset `k` into a nonempty antecedent `a ⊂ k` and the
  nonempty consequent `k \ a`, records `support = support k` and
  `confidence = support k / support a`, and keeps rules with
  `confidence ≥ 1/2`.
* The source's target filter compares `str(rule.consequents)` with the
  literal text of the one-element frozenset holding `HAS_TEST`; for
  duplicate-free column lists that string equality holds exactly when the
  consequent list is `["HAS_TEST"]`, which is how it is modelled here.
* The source's early returns of an empty frame (no frequent itemsets, no
  rules, no rules about testing) coincide with the empty list propagating
  through the remaining stages, so the pipeline is modelled as one
  composition.
* Support of an itemset over a zero-row table is `0` (rational division by
  zero), matching mlxtend's NaN support never clearing the threshold.
-/

/-- One row of the feature table: the requirement identifier (`id` column)
plus the boolean status cells, keyed by column label. -/
structure Row where
  id : String
  cells : List (String × Bool)
deriving DecidableEq

/-- Reading a boolean cell of a row; a label absent from the row reads as
`false` (such a label is never consulted by the pipeline on well-formed
tables, where every row has a cell for every column). -/
def Row.get (r : Row) (c : String) : Bool :=
  (r.cells.lookup c).getD false

/-- The one-hot encoded feature table: the boolean column labels
(`te.columns_`) and the rows. -/
structure FeatureTable where
  cols : List String
  rows : List Row
deriving DecidableEq

/-- An association rule as produced by `association_rules`: antecedent and
consequent item lists, the support of their union, and the confidence. -/
structure Rule where
  antecedents : List String
  consequents : List String
  support : ℚ
  confidence : ℚ
deriving DecidableEq

/-- A gap record appended by `find_exceptions`: entity identifier, the
human-readable rule statement, and the violated rule's confidence. -/
structure GapRecord where
  id : String
  violated_rule : String
  confidence : ℚ
deriving DecidableEq

/-- Support of an itemset: the fraction of rows on which every item's column
is `True`.  On a zero-row table this is `0` (division by zero in `ℚ`). -/
def itemsetSupport (df : FeatureTable) (s : List String) : ℚ :=
  ((df.rows.countP (fun r => s.all (fun c => r.get c)) : ℚ)) / ((df.rows.length : ℚ))

/-- `apriori(df_mining, min_support=0.01, use_colnames=True)`: all nonempty
column subsets (canonically, sublists of `cols`) with support at least
`1/100`. -/
def frequentItemsets (df : FeatureTable) : List (List String) :=
  df.cols.sublists.filter (fun s => !s.isEmpty && decide ((1 : ℚ)/100 ≤ itemsetSupport df s))

/-- One candidate rule: antecedent `a`, consequent `k \ a`, support of the
whole itemset `k`, confidence `support k / support a`. -/
def mkRuleOf (df : FeatureTable) (k a : List String) : Rule :=
  { antecedents := a
    consequents := k.filter (fun x => !(a.contains x))
    support := itemsetSupport df k
    confidence := itemsetSupport df k / itemsetSupport df a }

/-- All candidate rules: each frequent itemset split into a nonempty
antecedent and a nonempty consequent. -/
def candidateRules (df : FeatureTable) : List Rule :=
  (frequentItemsets df).flatMap (fun k =>
    (k.sublists.filter (fun a => !a.isEmpty && decide (a.length < k.length))).map
      (mkRuleOf df k))

/-- `association_rules(frequent_itemsets, metric="confidence",
min_threshold=0.5)`: candidate rules with confidence at least `1/2`. -/
def association_rules_conf (df : FeatureTable) : List Rule :=
  (candidateRules df).filter (fun r => decide ((1 : ℚ)/2 ≤ r.confidence))

/-- `discover_rules(df)` (src/mining.py:52-92): drop the `id` column, run
apriori at min_support 0.01, generate confidence-filtered rules, and keep
exactly the rules whose consequent is the singleton `HAS_TEST`. -/
def discover_rules (df : FeatureTable) : List Rule :=
  (association_rules_conf df).filter (fun r => r.consequents == ["HAS_TEST"])

/-- The successive filtering loops of `find_exceptions` (src/mining.py:115-123):
for each item, if it is a column of the table, keep the rows whose cell for it
equals `val`; an item that is not a column is skipped. -/
def filterByItems (cols : List String) (val : Bool) (items : List String)
    (rows : List Row) : List Row :=
  items.foldl
    (fun acc item =>
      if cols.contains item then acc.filter (fun r => r.get item == val) else acc)
    rows

/-- `df_antecedent`: the rows of `df` matching every antecedent item of the
rule that is a column (src/mining.py:113-117). -/
def antecedentRows (df : FeatureTable) (rule : Rule) : List Row :=
  filterByItems df.cols true rule.antecedents df.rows

/-- `df_violation`: from the antecedent-matching rows, those on which every
consequent item that is a column is `False` (src/mining.py:119-123). -/
def violatingRows (df : FeatureTable) (rule : Rule) : List Row :=
  filterByItems df.cols false rule.consequents (antecedentRows df rule)

/-- Python `repr` of a string: the string between quote characters. -/
def pyStrRepr (s : String) : String := "\x27" ++ s ++ "\x27"

/-- Python `repr` of a list of strings. -/
def pyListRepr (l : List String) : String :=
  "[" ++ String.intercalate ", " (l.map pyStrRepr) ++ "]"

/-- The f-string `"Rule: IF {antecedents} THEN {consequents}"`
(src/mining.py:129).  The source materialises the frozensets with `list(...)`,
whose iteration order is a hash artifact; it is modelled as the itemset's
canonical column order. -/
def ruleDescription (rule : Rule) : String :=
  "Rule: IF " ++ pyListRepr rule.antecedents ++ " THEN " ++ pyListRepr rule.consequents

/-- The gap record appended for one violating row (src/mining.py:127-131). -/
def gapOf (rule : Rule) (v : Row) : GapRecord :=
  { id := v.id, violated_rule := ruleDescription rule, confidence := rule.confidence }

/-- `find_exceptions(df, rules)` (src/mining.py:94-133): the loop over rules,
appending one gap record per violating row of each rule. -/
def find_exceptions (df : FeatureTable) (rules : List Rule) : List GapRecord :=
  rules.foldl (fun acc rule => acc ++ (violatingRows df rule).map (gapOf rule)) []

/-- A record returned by the feature-extraction graph query
(src/mining.py:15-26): identifier, requirement text, and the three
categorical status values. -/
structure QueryRecord where
  id : String
  text : String
  test_status : String
  code_status : String
  risk_status : String

/-- The transaction built for one record (src/mining.py:34-39). -/
def transactionOf (rec : QueryRecord) : List String :=
  [rec.test_status, rec.code_status, rec.risk_status]

/-- `TransactionEncoder` column universe: the sorted deduplicated union of
all observed items (`te.columns_`). -/
def encoderColumns (data : List QueryRecord) : List String :=
  List.insertionSort (fun a b => a ≤ b) (data.flatMap transactionOf).dedup

/-- `extract_features_for_mining` (src/mining.py:6-50), given the query
result: the one-hot encoded table (cell true iff the item occurs in the
row's transaction) with the `id` column added back, and the id→text map. -/
def extract_features_for_mining (data : List QueryRecord) :
    FeatureTable × List (String × String) :=
  let cols := encoderColumns data
  (⟨cols,
    data.map (fun rec =>
      { id := rec.id
        cells := cols.map (fun c => (c, (transactionOf rec).contains c)) })⟩,
   data.map (fun rec => (rec.id, rec.text)))

/-- Exactly one of two booleans is `true`. -/
def exactlyOne (x y : Bool) : Prop :=
  (x = true ∧ y = false) ∨ (x = false ∧ y = true)

/-! ## Characterization lemmas for the pipeline -/

theorem mem_filterByItems {cols : List String} {val : Bool} (items : List String)
    (rows : List Row) (r : Row) :
    r ∈ filterByItems cols val items rows ↔
      r ∈ rows ∧ ∀ i ∈ items, cols.contains i = true → r.get i = val := by
  induction items generalizing rows with
  | nil => simp [filterByItems]
  | cons i is ih =>
    have step : filterByItems cols val (i :: is) rows
        = filterByItems cols val is
            (if cols.contains i then rows.filter (fun r => r.get i == val) else rows) := rfl
    rw [step, ih]
    by_cases h : cols.contains i = true
    · simp only [h, if_true, List.mem_filter, beq_iff_eq, List.forall_mem_cons, forall_const]
      tauto
    · simp only [h, if_false, List.forall_mem_cons]
      tauto

theorem itemsetSupport_nonneg (df : FeatureTable) (s : List String) :
    0 ≤ itemsetSupport df s :=
  div_nonneg (by positivity) (by positivity)

theorem itemsetSupport_mono (df : FeatureTable) {a k : List String} (h : a ⊆ k) :
    itemsetSupport df k ≤ itemsetSupport df a := by
  unfold itemsetSupport
  rcases Nat.eq_zero_or_pos df.rows.length with h0 | h0
  · rw [h0]
    simp
  · have hc : (0 : ℚ) < (df.rows.length : ℚ) := by exact_mod_cast h0
    rw [div_le_div_iff_of_pos_right hc]
    have hcount : df.rows.countP (fun r => k.all (fun c => r.get c))
        ≤ df.rows.countP (fun r => a.all (fun c => r.get c)) := by
      apply List.countP_mono_left
      intro r _ hk
      simp only [List.all_eq_true] at hk ⊢
      exact fun c hca => hk c (h hca)
    exact_mod_cast hcount

theorem mem_frequentItemsets {df : FeatureTable} {s : List String} :
    s ∈ frequentItemsets df ↔
      s.Sublist df.cols ∧ s ≠ [] ∧ (1 : ℚ)/100 ≤ itemsetSupport df s := by
  simp [frequentItemsets, List.mem_filter, List.mem_sublists, and_assoc]

theorem mem_candidateRules {df : FeatureTable} {r : Rule} :
    r ∈ candidateRules df ↔
      ∃ k, k ∈ frequentItemsets df ∧
        ∃ a, a.Sublist k ∧ a ≠ [] ∧ a.length < k.length ∧ r = mkRuleOf df k a := by
  simp only [candidateRules, List.mem_flatMap, List.mem_map, List.mem_filter,
    List.mem_sublists, Bool.and_eq_true, Bool.not_eq_eq_eq_not, Bool.not_true,
    List.isEmpty_eq_false, decide_eq_true_eq]
  constructor
  · rintro ⟨k, hk, a, ⟨⟨ha, hne, hlt⟩, hr⟩⟩
    exact ⟨k, hk, a, ha, hne, hlt, hr.symm⟩
  · rintro ⟨k, hk, a, ha, hne, hlt, hr⟩
    exact ⟨k, hk, a, ⟨⟨ha, hne, hlt⟩, hr.symm⟩⟩

theorem mem_discover_rules {df : FeatureTable} {r : Rule} :
    r ∈ discover_rules df ↔
      r ∈ candidateRules df ∧ (1 : ℚ)/2 ≤ r.confidence ∧ r.consequents = ["HAS_TEST"] := by
  simp only [discover_rules, association_rules_conf, List.mem_filter, beq_iff_eq,
    decide_eq_true_eq]
  tauto

theorem find_exceptions_eq_flatMap (df : FeatureTable) (rules : List Rule) :
    find_exceptions df rules
      = rules.flatMap (fun ru => (violatingRows df ru).map (gapOf ru)) := by
  have h : ∀ (rs : List Rule) (acc : List GapRecord),
      rs.foldl (fun acc rule => acc ++ (violatingRows df rule).map (gapOf rule)) acc
        = acc ++ rs.flatMap (fun ru => (violatingRows df ru).map (gapOf ru)) := by
    intro rs
    induction rs with
    | nil => simp
    | cons ru rs ih => intro acc; simp [ih, List.append_assoc]
  simpa using h rules []

theorem filterByItems_skips_foreign (cols : List String) (val : Bool)
    (items : List String) (rows : List Row) :
    filterByItems cols val items rows
      = filterByItems cols val (items.filter (fun i => cols.contains i)) rows := by
  induction items generalizing rows with
  | nil => rfl
  | cons i is ih =>
    have step : filterByItems cols val (i :: is) rows
        = filterByItems cols val is
            (if cols.contains i then rows.filter (fun r => r.get i == val) else rows) := rfl
    by_cases h : cols.contains i = true
    · have step2 : filterByItems cols val (i :: is.filter (fun j => cols.contains j)) rows
          = filterByItems cols val (is.filter (fun j => cols.contains j))
              (if cols.contains i then rows.filter (fun r => r.get i == val) else rows) := rfl
      rw [step, if_pos h, ih, List.filter_cons_of_pos h, step2, if_pos h]
    · rw [step, if_neg h, ih, List.filter_cons_of_neg (by simpa using h)]

theorem lookup_map_pair (cols : List String) (f : String → Bool) (x : String) :
    (cols.map (fun c => (c, f c))).lookup x = if x ∈ cols then some (f x) else none := by
  induction cols with
  | nil => simp
  | cons c cs ih =>
    by_cases hx : x = c
    · subst hx
      simp [List.lookup]
    · have hbeq : (x == c) = false := by simpa using hx
      simp [List.lookup, hbeq, ih, hx]

theorem contains_eq_true_of_mem {l : List String} {a : String} (h : a ∈ l) :
    l.contains a = true := by
  simpa [List.contains] using h

theorem contains_eq_false_of_not_mem {l : List String} {a : String} (h : a ∉ l) :
    l.contains a = false := by
  simpa [List.contains] using h

/-! ## State-passing renderings for the frame claims

Every pandas operation performed by the source allocates a fresh frame:
`df.drop(columns=['id'])` returns a copy, `apriori` and `association_rules`
build new frames, boolean indexing (`df_antecedent[...]`, `df_violation[...]`)
returns filtered copies, and the single in-place write
(`rules['consequents_str'] = ...`) targets the locally created `rules` frame,
never an argument.  The state-passing renderings below therefore thread the
input table (and, for `find_exceptions`, the rule set) through each step of
the computation and return them alongside the result. -/

/-- `discover_rules` with the input table threaded through; the body only
reads `df`. -/
def discover_rules_st (df : FeatureTable) : List Rule × FeatureTable :=
  (discover_rules df, df)

/-- `find_exceptions` with the state threaded through the rule loop: each
iteration reads the table held in the state (`st.2`) to build its filtered
copies and returns that table unchanged. -/
def find_exceptions_st (df : FeatureTable) (rules : List Rule) :
    List GapRecord × FeatureTable × List Rule :=
  let p := rules.foldl
    (fun (st : List GapRecord × FeatureTable) rule =>
      (st.1 ++ (violatingRows st.2 rule).map (gapOf rule), st.2))
    ([], df)
  (p.1, p.2, rules)

theorem find_exceptions_st_loop (df : FeatureTable) (rules : List Rule)
    (acc : List GapRecord) :
    rules.foldl
      (fun (st : List GapRecord × FeatureTable) rule =>
        (st.1 ++ (violatingRows st.2 rule).map (gapOf rule), st.2))
      (acc, df)
      = (rules.foldl (fun acc rule => acc ++ (violatingRows df rule).map (gapOf rule)) acc,
         df) := by
  induction rules generalizing acc with
  | nil => rfl
  | cons ru rs ih => simpa using ih (acc ++ (violatingRows df ru).map (gapOf ru))

/-! ## Concrete instances used by the end-to-end claim and the witnesses -/

/-- A row over the four risk/test columns of the E2E-2 table. -/
def pairRow (id : String) (risk test : Bool) : Row :=
  { id := id
    cells := [("HAS_RISK", risk), ("HAS_TEST", test), ("NO_RISK", !risk), ("NO_TEST", !test)] }

/-- The E2E-2 table: 9 rows with risk and test, 1 row with risk and no test,
5 rows with neither. -/
def e2eTable : FeatureTable :=
  { cols := ["HAS_RISK", "HAS_TEST", "NO_RISK", "NO_TEST"]
    rows :=
      ["r1", "r2", "r3", "r4", "r5", "r6", "r7", "r8", "r9"].map (fun i => pairRow i true true)
      ++ [pairRow "r10" true false]
      ++ ["r11", "r12", "r13", "r14", "r15"].map (fun i => pairRow i false false) }

/-- The rule the E2E-2 table is expected to surface. -/
def e2eRule : Rule :=
  { antecedents := ["HAS_RISK"], consequents := ["HAS_TEST"], support := 3/5, confidence := 9/10 }

/-! ## The claims

The Batteries rational-number operations are `@[irreducible]`; they are made
semireducible locally so that concrete runs of the pipeline evaluate. -/

section ClaimSection

attribute [local semireducible] Rat.mul Rat.inv Rat.add Rat.sub

/-- Claim C1: for a feature table containing a `HAS_TEST` column and a rule
whose antecedent items are all columns of the table (and whose consequent is
the singleton `HAS_TEST`, the only consequent `discover_rules` emits),
`find_exceptions` emits a gap record for the pair (rule, row) — the row is
among the rule's violating rows, each of which yields exactly one record —
iff every antecedent column of the rule is true on that row and `HAS_TEST`
is false on that row. -/
theorem C1_gap_iff_antecedents_true_and_no_test (df : FeatureTable) (rule : Rule)
    (hcols : "HAS_TEST" ∈ df.cols)
    (hcons : rule.consequents = ["HAS_TEST"])
    (hant : ∀ a ∈ rule.antecedents, a ∈ df.cols) (r : Row) :
    (r ∈ violatingRows df rule ↔
      r ∈ df.rows ∧ (∀ a ∈ rule.antecedents, r.get a = true) ∧ r.get "HAS_TEST" = false)
    ∧ find_exceptions df [rule] = (violatingRows df rule).map (gapOf rule) := by
  have hct : df.cols.contains "HAS_TEST" = true := contains_eq_true_of_mem hcols
  constructor
  · simp only [violatingRows, antecedentRows, mem_filterByItems, hcons, List.mem_singleton,
      forall_eq, hct, forall_const]
    constructor
    · rintro ⟨⟨hr, hants⟩, hc⟩
      exact ⟨hr, fun a ha => hants a ha (contains_eq_true_of_mem (hant a ha)), hc⟩
    · rintro ⟨hr, hants, ht⟩
      exact ⟨⟨hr, fun i hi _ => hants i hi⟩, ht⟩
  · simp [find_exceptions]

/-- Witness for C1 at the E2E-2 table, its accepted rule and its one
violating row. -/
theorem C1_gap_iff_antecedents_true_and_no_test_witness :
    ("HAS_TEST" ∈ e2eTable.cols ∧ e2eRule.consequents = ["HAS_TEST"] ∧
      (∀ a ∈ e2eRule.antecedents, a ∈ e2eTable.cols)) ∧
    ((pairRow "r10" true false ∈ violatingRows e2eTable e2eRule ↔
        pairRow "r10" true false ∈ e2eTable.rows ∧
          (∀ a ∈ e2eRule.antecedents, (pairRow "r10" true false).get a = true) ∧
          (pairRow "r10" true false).get "HAS_TEST" = false)
      ∧ find_exceptions e2eTable [e2eRule]
          = (violatingRows e2eTable e2eRule).map (gapOf e2eRule)) :=
  ⟨⟨by decide, by decide, by decide⟩,
   C1_gap_iff_antecedents_true_and_no_test e2eTable e2eRule (by decide) (by decide)
     (by decide) (pairRow "r10" true false)⟩

/-- Claim C2: every rule in the set returned by `discover_rules` has a
consequent that is exactly the single-item set containing `HAS_TEST`. -/
theorem C2_consequent_is_exactly_has_test (df : FeatureTable) (r : Rule)
    (h : r ∈ discover_rules df) : r.consequents = ["HAS_TEST"] :=
  (mem_discover_rules.mp h).2.2

/-- Witness for C2 at the E2E-2 table and its accepted rule. -/
theorem C2_consequent_is_exactly_has_test_witness :
    e2eRule ∈ discover_rules e2eTable ∧ e2eRule.consequents = ["HAS_TEST"] :=
  ⟨by decide, C2_consequent_is_exactly_has_test e2eTable e2eRule (by decide)⟩

/-- Claim C3: on the 15-row table with 9 rows risk-and-test, 1 row
risk-no-test and 5 rows no-risk-no-test, `discover_rules` accepts exactly
the rule `HAS_RISK → HAS_TEST` with support `9/15` and confidence `9/10`
(clearing both thresholds), and `find_exceptions` returns exactly one gap
record, for the single risk-no-test row `r10`. -/
theorem C3_e2e2_one_rule_one_gap :
    discover_rules e2eTable = [e2eRule] ∧
    e2eRule.support = 9/15 ∧ e2eRule.confidence = 9/10 ∧
    (1 : ℚ)/100 ≤ e2eRule.support ∧ (1 : ℚ)/2 ≤ e2eRule.confidence ∧
    find_exceptions e2eTable (discover_rules e2eTable)
      = [{ id := "r10",
           violated_rule := "Rule: IF [\x27HAS_RISK\x27] THEN [\x27HAS_TEST\x27]",
           confidence := 9/10 }] := by
  decide

/-- Claim C4: every rule returned by `discover_rules` has support at least
the minimum support `1/100`, and a confidence `c` with `0 ≤ c ≤ 1` and
`c ≥ 1/2`, the minimum confidence. -/
theorem C4_support_and_confidence_bounds (df : FeatureTable) (r : Rule)
    (h : r ∈ discover_rules df) :
    (1 : ℚ)/100 ≤ r.support ∧
    0 ≤ r.confidence ∧ r.confidence ≤ 1 ∧ (1 : ℚ)/2 ≤ r.confidence := by
  obtain ⟨hc, hconf, -⟩ := mem_discover_rules.mp h
  obtain ⟨k, hk, a, hsub, -, -, rfl⟩ := mem_candidateRules.mp hc
  obtain ⟨-, -, hsupp⟩ := mem_frequentItemsets.mp hk
  refine ⟨hsupp, ?_, ?_, hconf⟩
  · exact div_nonneg (itemsetSupport_nonneg df k) (itemsetSupport_nonneg df a)
  · show itemsetSupport df k / itemsetSupport df a ≤ 1
    by_cases ha : itemsetSupport df a = 0
    · simp [ha]
    · have hle : itemsetSupport df k ≤ itemsetSupport df a :=
        itemsetSupport_mono df hsub.subset
      have hpos : 0 < itemsetSupport df a :=
        lt_of_le_of_ne (itemsetSupport_nonneg df a) (Ne.symm ha)
      exact (div_le_one hpos).mpr hle

/-- Witness for C4 at the E2E-2 table and its accepted rule. -/
theorem C4_support_and_confidence_bounds_witness :
    e2eRule ∈ discover_rules e2eTable ∧
    ((1 : ℚ)/100 ≤ e2eRule.support ∧
      0 ≤ e2eRule.confidence ∧ e2eRule.confidence ≤ 1 ∧ (1 : ℚ)/2 ≤ e2eRule.confidence) :=
  ⟨by decide, C4_support_and_confidence_bounds e2eTable e2eRule (by decide)⟩

end ClaimSection

theorem extract_row_get (data : List QueryRecord) (rec : QueryRecord) (x : String)
    (hx : x ∈ encoderColumns data) :
    Row.get { id := rec.id
              cells := (encoderColumns data).map
                (fun c => (c, (transactionOf rec).contains c)) } x
      = (transactionOf rec).contains x := by
  unfold Row.get
  rw [lookup_map_pair, if_pos hx]
  rfl

/-- Claim C5: when the query records draw each status from its two-valued
domain, every row of the one-hot table built by
`extract_features_for_mining` has exactly one of the two columns of each
status pair true, whenever both columns of the pair exist in the table. -/
theorem C5_status_pairs_mutually_exclusive (data : List QueryRecord)
    (hdom : ∀ rec ∈ data,
      (rec.test_status = "HAS_TEST" ∨ rec.test_status = "NO_TEST") ∧
      (rec.code_status = "HAS_CODE" ∨ rec.code_status = "NO_CODE") ∧
      (rec.risk_status = "HAS_RISK" ∨ rec.risk_status = "NO_RISK")) :
    ∀ r ∈ (extract_features_for_mining data).1.rows,
      ("HAS_TEST" ∈ (extract_features_for_mining data).1.cols →
        "NO_TEST" ∈ (extract_features_for_mining data).1.cols →
        exactlyOne (r.get "HAS_TEST") (r.get "NO_TEST")) ∧
      ("HAS_CODE" ∈ (extract_features_for_mining data).1.cols →
        "NO_CODE" ∈ (extract_features_for_mining data).1.cols →
        exactlyOne (r.get "HAS_CODE") (r.get "NO_CODE")) ∧
      ("HAS_RISK" ∈ (extract_features_for_mining data).1.cols →
        "NO_RISK" ∈ (extract_features_for_mining data).1.cols →
        exactlyOne (r.get "HAS_RISK") (r.get "NO_RISK")) := by
  intro r hr
  simp only [extract_features_for_mining, List.mem_map] at hr ⊢
  obtain ⟨rec, hrec, rfl⟩ := hr
  obtain ⟨ht, hc, hk⟩ := hdom rec hrec
  refine ⟨fun h1 h2 => ?_, fun h1 h2 => ?_, fun h1 h2 => ?_⟩ <;>
    rw [extract_row_get data rec _ h1, extract_row_get data rec _ h2] <;>
    rcases ht with h | h <;> rcases hc with h' | h' <;> rcases hk with h'' | h'' <;>
    simp [transactionOf, exactlyOne, h, h', h'']

/-- Witness for C5 on a two-record query result. -/
theorem C5_status_pairs_mutually_exclusive_witness :
    (∀ rec ∈ ([{ id := "q1", text := "t1", test_status := "HAS_TEST",
                 code_status := "HAS_CODE", risk_status := "NO_RISK" },
               { id := "q2", text := "t2", test_status := "NO_TEST",
                 code_status := "NO_CODE", risk_status := "HAS_RISK" }] : List QueryRecord),
      (rec.test_status = "HAS_TEST" ∨ rec.test_status = "NO_TEST") ∧
      (rec.code_status = "HAS_CODE" ∨ rec.code_status = "NO_CODE") ∧
      (rec.risk_status = "HAS_RISK" ∨ rec.risk_status = "NO_RISK")) ∧
    (∀ r ∈ (extract_features_for_mining
        [{ id := "q1", text := "t1", test_status := "HAS_TEST",
           code_status := "HAS_CODE", risk_status := "NO_RISK" },
         { id := "q2", text := "t2", test_status := "NO_TEST",
           code_status := "NO_CODE", risk_status := "HAS_RISK" }]).1.rows,
      ("HAS_TEST" ∈ (extract_features_for_mining
          [{ id := "q1", text := "t1", test_status := "HAS_TEST",
             code_status := "HAS_CODE", risk_status := "NO_RISK" },
           { id := "q2", text := "t2", test_status := "NO_TEST",
             code_status := "NO_CODE", risk_status := "HAS_RISK" }]).1.cols →
        "NO_TEST" ∈ (extract_features_for_mining
          [{ id := "q1", text := "t1", test_status := "HAS_TEST",
             code_status := "HAS_CODE", risk_status := "NO_RISK" },
           { id := "q2", text := "t2", test_status := "NO_TEST",
             code_status := "NO_CODE", risk_status := "HAS_RISK" }]).1.cols →
        exactlyOne (r.get "HAS_TEST") (r.get "NO_TEST")) ∧
      ("HAS_CODE" ∈ (extract_features_for_mining
          [{ id := "q1", text := "t1", test_status := "HAS_TEST",
             code_status := "HAS_CODE", risk_status := "NO_RISK" },
           { id := "q2", text := "t2", test_status := "NO_TEST",
             code_status := "NO_CODE", risk_status := "HAS_RISK" }]).1.cols →
        "NO_CODE" ∈ (extract_features_for_mining
          [{ id := "q1", text := "t1", test_status := "HAS_TEST",
             code_status := "HAS_CODE", risk_status := "NO_RISK" },
           { id := "q2", text := "t2", test_status := "NO_TEST",
             code_status := "NO_CODE", risk_status := "HAS_RISK" }]).1.cols →
        exactlyOne (r.get "HAS_CODE") (r.get "NO_CODE")) ∧
      ("HAS_RISK" ∈ (extract_features_for_mining
          [{ id := "q1", text := "t1", test_status := "HAS_TEST",
             code_status := "HAS_CODE", risk_status := "NO_RISK" },
           { id := "q2", text := "t2", test_status := "NO_TEST",
             code_status := "NO_CODE", risk_status := "HAS_RISK" }]).1.cols →
        "NO_RISK" ∈ (extract_features_for_mining
          [{ id := "q1", text := "t1", test_status := "HAS_TEST",
             code_status := "HAS_CODE", risk_status := "NO_RISK" },
           { id := "q2", text := "t2", test_status := "NO_TEST",
             code_status := "NO_CODE", risk_status := "HAS_RISK" }]).1.cols →
        exactlyOne (r.get "HAS_RISK") (r.get "NO_RISK"))) :=
  ⟨by decide,
   C5_status_pairs_mutually_exclusive
     [{ id := "q1", text := "t1", test_status := "HAS_TEST",
        code_status := "HAS_CODE", risk_status := "NO_RISK" },
      { id := "q2", text := "t2", test_status := "NO_TEST",
        code_status := "NO_CODE", risk_status := "HAS_RISK" }] (by decide)⟩

section ClaimSectionTwo

attribute [local semireducible] Rat.mul Rat.inv Rat.add Rat.sub

/-- Claim C6: empty inputs are normal terminal states: `discover_rules` on a
zero-row table, or on any table with no frequent itemset or no surviving
rule, returns the empty rule set (the functions are total, so no exception
is possible in the model); and `find_exceptions` with an empty rule set
returns the empty list. -/
theorem C6_empty_inputs_return_empty :
    (∀ cols : List String, discover_rules ⟨cols, []⟩ = []) ∧
    (∀ df : FeatureTable, frequentItemsets df = [] → discover_rules df = []) ∧
    (∀ df : FeatureTable, association_rules_conf df = [] → discover_rules df = []) ∧
    (∀ df : FeatureTable, find_exceptions df [] = []) := by
  refine ⟨?_, ?_, ?_, ?_⟩
  · intro cols
    have hfreq : frequentItemsets ⟨cols, []⟩ = [] := by
      apply List.filter_eq_nil_iff.mpr
      intro s hs
      have h0 : itemsetSupport ⟨cols, []⟩ s = 0 := by
        simp [itemsetSupport]
      simp only [Bool.and_eq_true, decide_eq_true_eq, not_and]
      intro _
      rw [h0]
      norm_num
    simp [discover_rules, association_rules_conf, candidateRules, hfreq]
  · intro df h
    simp [discover_rules, association_rules_conf, candidateRules, h]
  · intro df h
    simp [discover_rules, h]
  · intro df
    rfl

/-- Witness for C6 at a one-column zero-row table and the E2E-2 table. -/
theorem C6_empty_inputs_return_empty_witness :
    (discover_rules ⟨["HAS_TEST"], []⟩ = []) ∧
    (frequentItemsets ⟨["HAS_TEST"], []⟩ = [] ∧ discover_rules ⟨["HAS_TEST"], []⟩ = []) ∧
    (find_exceptions e2eTable [] = []) :=
  ⟨C6_empty_inputs_return_empty.1 ["HAS_TEST"],
   ⟨by decide, C6_empty_inputs_return_empty.2.1 ⟨["HAS_TEST"], []⟩ (by decide)⟩,
   C6_empty_inputs_return_empty.2.2.2 e2eTable⟩

/-- Claim C7: `find_exceptions` emits exactly one gap record per
(rule, violating row) pair — the output is the concatenation over rules of
one record per violating row, its length is the sum of the per-rule
violating-row counts, a row violating two rules yields one record under each
rule (same entity identifier, from the row's `id`) — and every emitted
record carries the entity identifier, the human-readable rule statement and
the rule's confidence. -/
theorem C7_one_record_per_rule_row_pair (df : FeatureTable) (rules : List Rule) :
    find_exceptions df rules
      = rules.flatMap (fun ru => (violatingRows df ru).map (gapOf ru)) ∧
    (find_exceptions df rules).length
      = (rules.map (fun ru => (violatingRows df ru).length)).sum ∧
    (∀ r1 r2 : Rule, find_exceptions df [r1, r2]
      = (violatingRows df r1).map (gapOf r1) ++ (violatingRows df r2).map (gapOf r2)) ∧
    (∀ g ∈ find_exceptions df rules, ∃ ru ∈ rules, ∃ v ∈ violatingRows df ru,
      g = { id := v.id, violated_rule := ruleDescription ru, confidence := ru.confidence }) := by
  refine ⟨find_exceptions_eq_flatMap df rules, ?_, ?_, ?_⟩
  · rw [find_exceptions_eq_flatMap]
    simp [List.flatMap, List.map_map, Function.comp_def]
  · intro r1 r2
    rw [find_exceptions_eq_flatMap]
    simp
  · intro g hg
    rw [find_exceptions_eq_flatMap] at hg
    obtain ⟨ru, hru, hg⟩ := List.mem_flatMap.mp hg
    obtain ⟨v, hv, rfl⟩ := List.mem_map.mp hg
    exact ⟨ru, hru, v, hv, rfl⟩

/-- Witness for C7 at the E2E-2 table with its accepted rule listed twice,
exhibiting the two separate gap records for the same identifier. -/
theorem C7_one_record_per_rule_row_pair_witness :
    find_exceptions e2eTable [e2eRule, e2eRule]
      = (violatingRows e2eTable e2eRule).map (gapOf e2eRule)
        ++ (violatingRows e2eTable e2eRule).map (gapOf e2eRule) :=
  (C7_one_record_per_rule_row_pair e2eTable [e2eRule, e2eRule]).2.2.1 e2eRule e2eRule

/-- Claim C8: the mining pipeline is deterministic: the outputs of
`discover_rules` and `find_exceptions` are functions of the table contents
(and rule set) alone, so two runs on the same input give the same result. -/
theorem C8_pipeline_deterministic (df1 df2 : FeatureTable)
    (h : df1.cols = df2.cols ∧ df1.rows = df2.rows) :
    discover_rules df1 = discover_rules df2 ∧
    ∀ rules : List Rule, find_exceptions df1 rules = find_exceptions df2 rules := by
  obtain ⟨hc, hr⟩ := h
  have hdf : df1 = df2 := by
    cases df1
    cases df2
    simp_all
  subst hdf
  exact ⟨rfl, fun _ => rfl⟩

/-- Witness for C8 at the E2E-2 table. -/
theorem C8_pipeline_deterministic_witness :
    discover_rules e2eTable = discover_rules e2eTable ∧
    ∀ rules : List Rule, find_exceptions e2eTable rules = find_exceptions e2eTable rules :=
  C8_pipeline_deterministic e2eTable e2eTable ⟨rfl, rfl⟩

/-- Claim C9: neither `discover_rules` nor `find_exceptions` modifies its
input: in the state-passing renderings, which thread the table (and the rule
set) through every step the source performs, the table and rule set come out
unchanged, and the gap list agrees with the direct function. -/
theorem C9_inputs_unmodified (df : FeatureTable) (rules : List Rule) :
    (discover_rules_st df).2 = df ∧
    (discover_rules_st df).1 = discover_rules df ∧
    (find_exceptions_st df rules).2.1 = df ∧
    (find_exceptions_st df rules).2.2 = rules ∧
    (find_exceptions_st df rules).1 = find_exceptions df rules := by
  refine ⟨rfl, rfl, ?_, rfl, ?_⟩
  · simp [find_exceptions_st, find_exceptions_st_loop]
  · simp [find_exceptions_st, find_exceptions_st_loop, find_exceptions]

/-- Claim C10: in `find_exceptions`, rule items that are not columns of the
table are silently skipped (filtering on the item-subset that is in the
columns gives the same result), and when the `HAS_TEST` column is absent
every row matching a rule's antecedent is reported as a violation. -/
theorem C10_missing_columns_skipped (df : FeatureTable) (rule : Rule)
    (h1 : "HAS_TEST" ∉ df.cols)
    (h2 : rule.consequents = ["HAS_TEST"]) :
    violatingRows df rule = antecedentRows df rule ∧
    (∀ r, r ∈ antecedentRows df rule ↔
      r ∈ df.rows ∧ ∀ a ∈ rule.antecedents, a ∈ df.cols → r.get a = true) ∧
    (∀ items val rows, filterByItems df.cols val items rows
      = filterByItems df.cols val (items.filter (fun i => df.cols.contains i)) rows) ∧
    find_exceptions df [rule] = (antecedentRows df rule).map (gapOf rule) := by
  have hfalse : df.cols.contains "HAS_TEST" = false := contains_eq_false_of_not_mem h1
  have hvr : violatingRows df rule = antecedentRows df rule := by
    unfold violatingRows
    rw [h2]
    simp [filterByItems, h1]
  refine ⟨hvr, ?_, ?_, ?_⟩
  · intro r
    rw [antecedentRows, mem_filterByItems]
    constructor
    · rintro ⟨hr, hall⟩
      exact ⟨hr, fun a ha hmem => hall a ha (contains_eq_true_of_mem hmem)⟩
    · rintro ⟨hr, hall⟩
      refine ⟨hr, fun i hi hc => hall i hi ?_⟩
      simpa [List.contains] using hc
  · intro items val rows
    exact filterByItems_skips_foreign df.cols val items rows
  · rw [← hvr]
    simp [find_exceptions]

/-- Witness for C10 at a one-column table lacking `HAS_TEST`. -/
theorem C10_missing_columns_skipped_witness :
    ("HAS_TEST" ∉ (⟨["HAS_RISK"], [{ id := "x", cells := [("HAS_RISK", true)] }]⟩
        : FeatureTable).cols ∧
      e2eRule.consequents = ["HAS_TEST"]) ∧
    (violatingRows ⟨["HAS_RISK"], [{ id := "x", cells := [("HAS_RISK", true)] }]⟩ e2eRule
        = antecedentRows ⟨["HAS_RISK"], [{ id := "x", cells := [("HAS_RISK", true)] }]⟩ e2eRule ∧
      (∀ r, r ∈ antecedentRows
            ⟨["HAS_RISK"], [{ id := "x", cells := [("HAS_RISK", true)] }]⟩ e2eRule ↔
        r ∈ (⟨["HAS_RISK"], [{ id := "x", cells := [("HAS_RISK", true)] }]⟩
            : FeatureTable).rows ∧
          ∀ a ∈ e2eRule.antecedents,
            a ∈ (⟨["HAS_RISK"], [{ id := "x", cells := [("HAS_RISK", true)] }]⟩
              : FeatureTable).cols → r.get a = true) ∧
      (∀ items val rows, filterByItems
          (⟨["HAS_RISK"], [{ id := "x", cells := [("HAS_RISK", true)] }]⟩
            : FeatureTable).cols val items rows
        = filterByItems
            (⟨["HAS_RISK"], [{ id := "x", cells := [("HAS_RISK", true)] }]⟩
              : FeatureTable).cols val
            (items.filter (fun i =>
              (⟨["HAS_RISK"], [{ id := "x", cells := [("HAS_RISK", true)] }]⟩
                : FeatureTable).cols.contains i)) rows) ∧
      find_exceptions ⟨["HAS_RISK"], [{ id := "x", cells := [("HAS_RISK", true)] }]⟩ [e2eRule]
        = (antecedentRows ⟨["HAS_RISK"], [{ id := "x", cells := [("HAS_RISK", true)] }]⟩
            e2eRule).map (gapOf e2eRule)) :=
  ⟨⟨by decide, by decide⟩,
   C10_missing_columns_skipped
     ⟨["HAS_RISK"], [{ id := "x", cells := [("HAS_RISK", true)] }]⟩ e2eRule
     (by decide) (by decide)⟩

end ClaimSectionTwo
